import Mathlib

/-
Verification development for the messenger-ai repository.

The definitions below are a shallow embedding of the TypeScript source:

* `MessengerAI.FileHandler`   — the per-conversation history / knowledge-base
  store (src/unnamed/part_003: `addMessageToHistory`, `processAndStoreFile`,
  `getConversationContext`, `getKnowledgeBase`).
* `MessengerAI.FileHandlerV2` — the newer fileHandler variant
  (second file of src/unnamed/part_004) that delegates storage to
  `contextManager` and guards storage on extraction success.
* `MessengerAI.Supervisor`    — the promise/listener machinery of
  `queryDedalusAgent` (src/brief-ai/index.ts).
* `MessengerAI.IndexBot`      — `answerQuestion` prompt composition,
  `handleTagLogic` and `onGroupMessage` of src/brief-ai/index.ts.
* `MessengerAI.JohnTest`      — `answerQuestion` / `handleTagLogic` of
  src/brief-ai/johntest.ts.

Strings are modelled as sequences of Unicode scalar values (Lean `String`);
JavaScript string indexing is by UTF-16 code units, which agrees on the
ASCII data handled here.  I/O (file reads, PDF/image extraction, the agent
subprocess) is modelled by explicit oracle parameters.  JavaScript `Map`s
keyed by chat id are modelled as total functions `String → List _` with
default `[]`, which is observationally faithful because every read in the
source is `map.get(chatId) || []` (or `undefined` checks on absence).
-/

namespace MessengerAI

/-- JavaScript `Array.prototype.join(sep)`: empty list gives the empty
string, otherwise the elements interleaved with the separator. -/
def joinSep (sep : String) : List String → String
  | [] => ""
  | [a] => a
  | a :: b :: rest => a ++ sep ++ joinSep sep (b :: rest)

/-- JavaScript `String.prototype.includes(sub)`: `sub` occurs as a
contiguous substring of `s`. -/
def strIncludes (s sub : String) : Bool :=
  s.toList.tails.any (fun t => sub.toList.isPrefixOf t)

/-- JavaScript `String.prototype.toLowerCase()` on the ASCII data handled
here: lower-case every character. -/
def jsToLower (s : String) : String :=
  String.mk (s.data.map Char.toLower)

/-- JavaScript `String.prototype.trim()`: strip leading and trailing
whitespace. -/
def jsTrim (s : String) : String :=
  String.mk ((((s.data.dropWhile Char.isWhitespace).reverse).dropWhile Char.isWhitespace).reverse)

/-- JavaScript `String.prototype.startsWith(pre)`. -/
def jsStartsWith (s pre : String) : Bool :=
  pre.data.isPrefixOf s.data

/-- Split a character list at every occurrence of the separator character;
always returns at least one (possibly empty) piece.  Matches JavaScript
`split(sep)` for a one-character separator. -/
def splitChar (c : Char) : List Char → List (List Char)
  | [] => [[]]
  | x :: xs =>
    if x = c then [] :: splitChar c xs
    else
      match splitChar c xs with
      | [] => [[x]]
      | h :: t => (x :: h) :: t

/-- JavaScript `s.split(sep)` for a one-character separator. -/
def jsSplitChar (c : Char) (s : String) : List String :=
  (splitChar c s.data).map String.mk

/-- Index of the last occurrence of `c` in the list, scanning with offset
accumulator.  Helper for `extname`. -/
def lastIdxOfAux (c : Char) : List Char → Nat → Option Nat
  | [], _ => none
  | x :: xs, i =>
    match lastIdxOfAux c xs (i + 1) with
    | some j => some j
    | none => if x = c then some i else none

/-- Node's `path.extname`: the suffix of the basename from its last dot,
or the empty string when there is no dot, the dot is the basename's first
character, or the basename consists of dots only. -/
def extname (s : String) : String :=
  let base := ((jsSplitChar '/' s).getLastD "").toList
  match lastIdxOfAux '.' base 0 with
  | none => ""
  | some i =>
    if i = 0 then ""
    else if (base.take i).all (fun ch => ch == '.') && (i + 1 == base.length) then ""
    else String.mk (base.drop i)

/-- The bounded insert used by both stores in src/unnamed/part_003
(`history.push(entry); if (history.length > 10) history.shift();`):
append at the tail, and when the length then exceeds `cap`, drop the
head. -/
def pushCapped (cap : Nat) (l : List α) (a : α) : List α :=
  let l' := l ++ [a]
  if cap < l'.length then l'.tail else l'

theorem pushCapped_eq_drop (cap : Nat) (l : List α) (a : α) (h : l.length ≤ cap) :
    pushCapped cap l a = (l ++ [a]).drop (l.length + 1 - cap) := by
  unfold pushCapped
  by_cases hc : cap < (l ++ [a]).length
  · rw [if_pos hc, ← List.drop_one]
    congr 1
    simp only [List.length_append, List.length_cons, List.length_nil] at hc ⊢
    omega
  · rw [if_neg hc]
    simp only [List.length_append, List.length_cons, List.length_nil] at hc
    have : l.length + 1 - cap = 0 := by omega
    rw [this, List.drop_zero]

theorem pushCapped_length_le (cap : Nat) (l : List α) (a : α) (h : l.length ≤ cap) :
    (pushCapped cap l a).length ≤ cap := by
  rw [pushCapped_eq_drop cap l a h]
  simp only [List.length_drop, List.length_append, List.length_cons, List.length_nil]
  omega

theorem foldl_pushCapped (cap : Nat) (es : List α) :
    ∀ l0 : List α, l0.length ≤ cap →
      List.foldl (pushCapped cap) l0 es = (l0 ++ es).drop (l0.length + es.length - cap) := by
  induction es with
  | nil =>
    intro l0 h
    have h0 : l0.length - cap = 0 := by omega
    simp [h0]
  | cons a es ih =>
    intro l0 h
    have h' : (pushCapped cap l0 a).length ≤ cap := pushCapped_length_le cap l0 a h
    rw [List.foldl_cons, ih _ h', pushCapped_eq_drop cap l0 a h]
    have hle : l0.length + 1 - cap ≤ (l0 ++ [a]).length := by
      simp only [List.length_append, List.length_cons, List.length_nil]; omega
    rw [← List.drop_append_of_le_length hle, List.drop_drop]
    have hl : (l0 ++ [a]) ++ es = l0 ++ a :: es := by simp
    rw [hl]
    congr 1
    simp only [List.length_drop, List.length_append, List.length_cons, List.length_nil]
    omega

/-- Every element of the list occurs verbatim inside the `joinSep`
rendering, flanked by some prefix and suffix. -/
theorem joinSep_mem (sep : String) (l : List String) (a : String) (h : a ∈ l) :
    ∃ pre post, joinSep sep l = pre ++ a ++ post := by
  induction l with
  | nil => cases h
  | cons x xs ih =>
    cases h with
    | head =>
      cases xs with
      | nil => exact ⟨"", "", by simp [joinSep]⟩
      | cons y ys => exact ⟨"", sep ++ joinSep sep (y :: ys), by simp [joinSep, String.append_assoc]⟩
    | tail _ hmem =>
      obtain ⟨pre, post, hpp⟩ := ih hmem
      cases xs with
      | nil => cases hmem
      | cons y ys =>
        refine ⟨x ++ sep ++ pre, post, ?_⟩
        simp [joinSep, hpp, String.append_assoc]

/-- An inbound attachment as delivered by the messaging adapter
(`Attachment` of the imessage-kit: filename plus local path). -/
structure AttachmentMsg where
  filename : String
  path : String
  deriving DecidableEq, Repr

/-- An inbound message as delivered by the messaging adapter (`Message`):
the fields read by the source. `senderName`/`text` are optional, matching
the possibly-absent JavaScript fields. -/
structure Msg where
  chatId : String
  isFromMe : Bool
  senderName : Option String
  text : Option String
  attachments : Option (List AttachmentMsg)
  deriving DecidableEq, Repr

namespace FileHandler

/-- `FileEntry` of src/unnamed/part_003: one stored knowledge-base file. -/
structure FileEntry where
  filename : String
  content : String
  deriving DecidableEq, Repr

/-- One stored attachment inside a `MessageHistoryEntry`
(src/unnamed/part_003). -/
structure AttachmentEntry where
  filename : String
  type : String
  extractedContent : Option String
  deriving DecidableEq, Repr

/-- `MessageHistoryEntry` of src/unnamed/part_003.  The JavaScript
`timestamp: Date` is modelled as a `Nat` supplied by the caller. -/
structure MessageHistoryEntry where
  senderName : String
  text : Option String
  attachments : Option (List AttachmentEntry)
  timestamp : Nat
  deriving DecidableEq, Repr

/-- The module-level `knowledgeBase` and `messageHistory` maps of
src/unnamed/part_003, as total functions with default `[]`. -/
structure Store where
  knowledgeBase : String → List FileEntry
  messageHistory : String → List MessageHistoryEntry

/-- The store before any operation: both maps empty. -/
def initStore : Store :=
  { knowledgeBase := fun _ => [], messageHistory := fun _ => [] }

/-- `knowledgeBase.set(chatId, files)`. -/
def setKB (st : Store) (c : String) (files : List FileEntry) : Store :=
  { st with knowledgeBase := fun k => if k = c then files else st.knowledgeBase k }

/-- `messageHistory.set(chatId, history)`. -/
def setHistory (st : Store) (c : String) (h : List MessageHistoryEntry) : Store :=
  { st with messageHistory := fun k => if k = c then h else st.messageHistory k }

/-- The extension dispatch of `addMessageToHistory` for one attachment
(src/unnamed/part_003 lines 92–103): PDF text via the pdf oracle, txt/md
via the file-read oracle, image extensions get an `[Image: …]` placeholder,
anything else a `[File: …]` placeholder. -/
def extractAttachmentContent (pdfText readFile : String → String) (a : AttachmentMsg) : String :=
  let ext := jsToLower (extname a.filename)
  if ext = ".pdf" then pdfText a.path
  else if ext = ".txt" || ext = ".md" then readFile a.path
  else if ext = ".jpg" || ext = ".jpeg" || ext = ".png" || ext = ".gif" then
    "[Image: " ++ a.filename ++ "]"
  else "[File: " ++ a.filename ++ "]"

/-- The `MessageHistoryEntry` built by `addMessageToHistory`
(src/unnamed/part_003 lines 82–111): sender label (`'You'` when
`isFromMe`, else `senderName || 'Unknown'` — the empty string is falsy),
the optional text, and the attachments array only when the message has a
non-empty attachment list. -/
def toHistoryEntry (pdfText readFile : String → String) (now : Nat) (m : Msg) :
    MessageHistoryEntry :=
  { senderName :=
      if m.isFromMe then "You"
      else match m.senderName with
        | some s => if s = "" then "Unknown" else s
        | none => "Unknown"
    text := m.text
    attachments :=
      match m.attachments with
      | some l =>
        if 0 < l.length then
          some (l.map (fun a =>
            { filename := a.filename
              type := jsToLower (extname a.filename)
              extractedContent := some (extractAttachmentContent pdfText readFile a) }))
        else none
      | none => none
    timestamp := now }

/-- `addMessageToHistory(chatId, message)` of src/unnamed/part_003:
append the entry and drop the oldest when the history exceeds 10. -/
def addMessageToHistory (pdfText readFile : String → String) (now : Nat)
    (st : Store) (chatId : String) (m : Msg) : Store :=
  setHistory st chatId (pushCapped 10 (st.messageHistory chatId) (toHistoryEntry pdfText readFile now m))

/-- The extension dispatch of `processAndStoreFile`
(src/unnamed/part_003 lines 50–59). -/
def extractContent (pdfText readFile : String → String) (a : AttachmentMsg) : String :=
  let ext := jsToLower (extname a.filename)
  if ext = ".pdf" then pdfText a.path
  else if ext = ".txt" || ext = ".md" then readFile a.path
  else "[File: " ++ a.filename ++ "]"

/-- `FileResult` of src/unnamed/part_003. -/
structure FileResult where
  summary : String
  content : String
  deriving DecidableEq, Repr

/-- `processAndStoreFile(chatId, file)` of src/unnamed/part_003: extract
by extension, push the filename/content pair, and drop the oldest pair
when the list exceeds 10. -/
def processAndStoreFile (pdfText readFile : String → String)
    (st : Store) (chatId : String) (file : AttachmentMsg) : Store × FileResult :=
  let extractedText := extractContent pdfText readFile file
  let st' := setKB st chatId
    (pushCapped 10 (st.knowledgeBase chatId) { filename := file.filename, content := extractedText })
  (st', { summary := "Successfully read and stored the content from \"" ++ file.filename ++ "\"."
          content := extractedText })

/-- The per-attachment rendering inside `getConversationContext`
(src/unnamed/part_003 lines 136–146): the attachment marker line, then —
when the extracted content is non-empty — a content line truncated at 500
characters with an ellipsis appended when truncation happened. -/
def renderAttachment (a : AttachmentEntry) : String :=
  "\n  [Attachment: " ++ a.filename ++ "]" ++
    (match a.extractedContent with
     | some c =>
       if c = "" then ""
       else "\n  Content: " ++ (if 500 < c.length then c.take 500 ++ "..." else c)
     | none => "")

/-- One history entry rendered as in `getConversationContext`
(src/unnamed/part_003 lines 129–148). -/
def renderEntry (e : MessageHistoryEntry) : String :=
  let base := e.senderName ++ ": " ++
    (match e.text with
     | some t => if t = "" then "" else t
     | none => "")
  match e.attachments with
  | some atts => if 0 < atts.length then base ++ String.join (atts.map renderAttachment) else base
  | none => base

/-- `getConversationContext(chatId)` of src/unnamed/part_003: the empty
string on empty history, otherwise header line, one rendered line per
entry in order, and the footer line, joined by newlines. -/
def getConversationContext (st : Store) (chatId : String) : String :=
  if (st.messageHistory chatId).length = 0 then ""
  else joinSep "\n"
    ("--- Recent Conversation History ---" :: (st.messageHistory chatId).map renderEntry
      ++ ["--- End of Conversation History ---"])

/-- `getKnowledgeBase(chatId)` of src/unnamed/part_003: `undefined`
(`none`) when no files are retained, otherwise all retained files each
wrapped in a begin/end delimiter pair, joined by blank lines. -/
def getKnowledgeBase (st : Store) (chatId : String) : Option String :=
  if (st.knowledgeBase chatId).length = 0 then none
  else some (joinSep "\n\n" ((st.knowledgeBase chatId).map (fun file =>
    "--- Content from " ++ file.filename ++ " ---\n" ++ file.content ++ "\n--- End of Content ---")))

/-- A sequence of `addMessageToHistory` calls for one conversation,
each with its own timestamp. -/
def runHistory (pdfText readFile : String → String) (st : Store) (chatId : String) :
    List (Msg × Nat) → Store
  | [] => st
  | (m, t) :: rest =>
    runHistory pdfText readFile (addMessageToHistory pdfText readFile t st chatId m) chatId rest

/-- A sequence of `processAndStoreFile` calls for one conversation. -/
def runFiles (pdfText readFile : String → String) (st : Store) (chatId : String) :
    List AttachmentMsg → Store
  | [] => st
  | a :: rest =>
    runFiles pdfText readFile (processAndStoreFile pdfText readFile st chatId a).1 chatId rest

theorem runHistory_messageHistory (pdfText readFile : String → String) (chatId : String)
    (ms : List (Msg × Nat)) :
    ∀ st : Store,
      (runHistory pdfText readFile st chatId ms).messageHistory chatId =
        List.foldl (pushCapped 10) (st.messageHistory chatId)
          (ms.map (fun p => toHistoryEntry pdfText readFile p.2 p.1)) := by
  induction ms with
  | nil => intro st; simp [runHistory]
  | cons p rest ih =>
    intro st
    cases p with
    | mk m t =>
      rw [runHistory, ih]
      simp [addMessageToHistory, setHistory]

theorem runFiles_knowledgeBase (pdfText readFile : String → String) (chatId : String)
    (atts : List AttachmentMsg) :
    ∀ st : Store,
      (runFiles pdfText readFile st chatId atts).knowledgeBase chatId =
        List.foldl (pushCapped 10) (st.knowledgeBase chatId)
          (atts.map (fun a =>
            ({ filename := a.filename, content := extractContent pdfText readFile a } : FileEntry))) := by
  induction atts with
  | nil => intro st; simp [runFiles]
  | cons a rest ih =>
    intro st
    rw [runFiles, ih]
    simp [processAndStoreFile, setKB]

end FileHandler

/-- C2: for every conversation and every sequence of n `addMessageToHistory`
calls on it, the retained history has exactly `min(10, n)` entries, eviction
drops the oldest entry first (the retained entries are the last `min(10, n)`
of the appended sequence, in order), and `getConversationContext` renders
exactly those retained entries in chronological order — never more than 10. -/
theorem c2_history_bounded_rendering (pdfText readFile : String → String)
    (chatId : String) (ms : List (Msg × Nat)) :
    ((FileHandler.runHistory pdfText readFile FileHandler.initStore chatId ms).messageHistory
        chatId).length = min 10 ms.length
    ∧ (FileHandler.runHistory pdfText readFile FileHandler.initStore chatId ms).messageHistory
        chatId =
        (ms.map (fun p => FileHandler.toHistoryEntry pdfText readFile p.2 p.1)).drop
          (ms.length - 10)
    ∧ FileHandler.getConversationContext
        (FileHandler.runHistory pdfText readFile FileHandler.initStore chatId ms) chatId =
        (if ms.length = 0 then ""
         else joinSep "\n"
           ("--- Recent Conversation History ---" ::
              ((ms.map (fun p => FileHandler.toHistoryEntry pdfText readFile p.2 p.1)).drop
                  (ms.length - 10)).map FileHandler.renderEntry
              ++ ["--- End of Conversation History ---"])) := by
  have hes : (FileHandler.runHistory pdfText readFile FileHandler.initStore chatId
        ms).messageHistory chatId =
      (ms.map (fun p => FileHandler.toHistoryEntry pdfText readFile p.2 p.1)).drop
        (ms.length - 10) := by
    rw [FileHandler.runHistory_messageHistory]
    have h0 : FileHandler.initStore.messageHistory chatId = [] := rfl
    rw [h0, foldl_pushCapped 10 _ [] (by simp)]
    simp
  refine ⟨?_, hes, ?_⟩
  · rw [hes]
    simp only [List.length_drop, List.length_map]
    omega
  · rw [FileHandler.getConversationContext, hes]
    by_cases h : ms.length = 0
    · have hnil : ms = [] := List.length_eq_zero.mp h
      subst hnil
      simp
    · rw [if_neg h, if_neg]
      simp only [List.length_drop, List.length_map]
      omega

/-- C3: for every conversation and every sequence of n `processAndStoreFile`
calls on it, the retained files list has length `min(10, n)` (so never more
than 10, at all times since n is arbitrary), eviction is strictly FIFO (the
retained pairs are the last `min(10, n)` appended, in order), and files are
never deduplicated by filename: appending the same attachment twice yields
two independent entries. -/
theorem c3_files_fifo_no_dedup (pdfText readFile : String → String)
    (chatId : String) (atts : List AttachmentMsg) :
    ((FileHandler.runFiles pdfText readFile FileHandler.initStore chatId atts).knowledgeBase
        chatId).length = min 10 atts.length
    ∧ (FileHandler.runFiles pdfText readFile FileHandler.initStore chatId atts).knowledgeBase
        chatId =
        (atts.map (fun a =>
          ({ filename := a.filename,
             content := FileHandler.extractContent pdfText readFile a } : FileHandler.FileEntry))).drop
          (atts.length - 10)
    ∧ ∀ a : AttachmentMsg,
        (FileHandler.runFiles pdfText readFile FileHandler.initStore chatId [a, a]).knowledgeBase
          chatId =
          [{ filename := a.filename, content := FileHandler.extractContent pdfText readFile a },
           { filename := a.filename, content := FileHandler.extractContent pdfText readFile a }] := by
  have hes : ∀ l : List AttachmentMsg,
      (FileHandler.runFiles pdfText readFile FileHandler.initStore chatId l).knowledgeBase
        chatId =
      (l.map (fun a =>
        ({ filename := a.filename,
           content := FileHandler.extractContent pdfText readFile a } : FileHandler.FileEntry))).drop
        (l.length - 10) := by
    intro l
    rw [FileHandler.runFiles_knowledgeBase]
    have h0 : FileHandler.initStore.knowledgeBase chatId = [] := rfl
    rw [h0, foldl_pushCapped 10 _ [] (by simp)]
    simp
  refine ⟨?_, hes atts, ?_⟩
  · rw [hes atts]
    simp only [List.length_drop, List.length_map]
    omega
  · intro a
    rw [hes [a, a]]
    simp

/-- C7: in `getConversationContext`'s per-attachment rendering, a non-empty
extracted content of at most 500 characters appears in full with no ellipsis
marker, and a content longer than 500 characters is rendered as exactly its
first 500 characters followed by the marker. -/
theorem c7_attachment_truncation (fn ty c : String) (hc : c ≠ "") :
    (c.length ≤ 500 →
      FileHandler.renderAttachment { filename := fn, type := ty, extractedContent := some c } =
        "\n  [Attachment: " ++ fn ++ "]" ++ ("\n  Content: " ++ c))
    ∧ (500 < c.length →
      FileHandler.renderAttachment { filename := fn, type := ty, extractedContent := some c } =
        "\n  [Attachment: " ++ fn ++ "]" ++ ("\n  Content: " ++ (c.take 500 ++ "..."))
      ∧ (c.take 500).length = 500
      ∧ c.take 500 ++ c.drop 500 = c) := by
  constructor
  · intro hle
    simp only [FileHandler.renderAttachment]
    rw [if_neg hc, if_neg (by omega : ¬ 500 < c.length)]
  · intro hgt
    refine ⟨?_, ?_, ?_⟩
    · simp only [FileHandler.renderAttachment]
      rw [if_neg hc, if_pos hgt]
    · rw [String.take_eq]
      show (c.data.take 500).length = 500
      simp only [List.length_take]
      have : c.data.length = c.length := rfl
      omega
    · have hdata : (c.take 500 ++ c.drop 500).data = c.data := by
        rw [String.take_eq, String.drop_eq]
        exact List.take_append_drop 500 c.data
      exact String.ext hdata

/-- C7 witness: a two-character content is rendered in full, with no
ellipsis marker. -/
theorem c7_attachment_truncation_witness :
    ("hi" : String) ≠ "" ∧ ("hi" : String).length ≤ 500 ∧
      FileHandler.renderAttachment { filename := "a.txt", type := ".txt", extractedContent := some "hi" } =
        "\n  [Attachment: " ++ "a.txt" ++ "]" ++ ("\n  Content: " ++ "hi") := by
  have h := (c7_attachment_truncation "a.txt" ".txt" "hi" (by decide)).1
  exact ⟨by decide, by decide, h (by decide)⟩

/-- C8: `getKnowledgeBase` returns the absent sentinel (`none`, not an
empty string) iff no files are retained for the conversation; whenever at
least one file is retained — even one with empty content — it returns a
string in which each retained file's content is wrapped in a begin/end
delimiter pair tagged with that file's filename. -/
theorem c8_knowledge_base_sentinel (st : FileHandler.Store) (chatId : String) :
    (FileHandler.getKnowledgeBase st chatId = none ↔ st.knowledgeBase chatId = [])
    ∧ ∀ f ∈ st.knowledgeBase chatId, ∃ pre post,
        FileHandler.getKnowledgeBase st chatId =
          some (pre ++ ("--- Content from " ++ f.filename ++ " ---\n" ++ f.content
            ++ "\n--- End of Content ---") ++ post) := by
  constructor
  · rw [FileHandler.getKnowledgeBase]
    by_cases h : (st.knowledgeBase chatId).length = 0
    · rw [if_pos h]
      simp [List.length_eq_zero.mp h]
    · rw [if_neg h]
      constructor
      · intro hsome; cases hsome
      · intro hnil; rw [hnil] at h; simp at h
  · intro f hf
    have hne : ¬ (st.knowledgeBase chatId).length = 0 := by
      intro h0
      rw [List.length_eq_zero.mp h0] at hf
      cases hf
    obtain ⟨pre, post, hj⟩ := joinSep_mem "\n\n"
      ((st.knowledgeBase chatId).map (fun file =>
        "--- Content from " ++ file.filename ++ " ---\n" ++ file.content ++ "\n--- End of Content ---"))
      ("--- Content from " ++ f.filename ++ " ---\n" ++ f.content ++ "\n--- End of Content ---")
      (List.mem_map_of_mem _ hf)
    refine ⟨pre, post, ?_⟩
    rw [FileHandler.getKnowledgeBase, if_neg hne, hj]

namespace FileHandlerV2

/-- Outcome contract of the PDF/image processors
(src/unnamed/part_002 `processPDF`, src/unnamed/part_001 `processImage`):
a success flag and the extracted content (a data URL or text on success, a
bracketed placeholder such as `[Error processing image: …]` on failure). -/
structure ProcResult where
  success : Bool
  content : String
  deriving DecidableEq, Repr

/-- `imageProcessor.isImageFile` (src/unnamed/part_001): the filename's
lowercased extension is one of the supported image formats. -/
def isImageFile (filename : String) : Bool :=
  let ext := jsToLower (extname filename)
  ext = ".jpg" || ext = ".jpeg" || ext = ".png" || ext = ".gif" || ext = ".webp" || ext = ".bmp"

/-- The contextManager's knowledge base, keyed by chat id. -/
def KBState := String → List FileHandler.FileEntry

/-- Modelled from the spec: `contextManager.addFileToKnowledgeBase`
(src/brief-ai/processors/contextManager.ts is not under src/; only its
caller in the second file of src/unnamed/part_004 is).  Per the spec's
`appendFile`: insert the filename/content pair at the tail of the
conversation's `files`, evicting from the head when the bounded length is
exceeded (FIFO, no deduplication by filename). -/
def addFileToKnowledgeBase (kb : KBState) (chatId filename content : String) : KBState :=
  fun k =>
    if k = chatId then pushCapped 10 (kb chatId) { filename := filename, content := content }
    else kb k

/-- `FileResult` of the newer fileHandler (second file of
src/unnamed/part_004). -/
structure FileResultV2 where
  summary : String
  content : String
  success : Bool
  fileType : String
  deriving DecidableEq, Repr

/-- The extraction dispatch of the newer `processAndStoreFile`
(src/unnamed/part_004 lines 79–100): PDF and image files go through their
processors, txt/md through the file system (whose failure is the only
exception reaching the surrounding catch), anything else gets a
placeholder.  Returns fileType, extracted content and success flag, or the
thrown error message. -/
def extractV2 (pdfRes imgRes : ProcResult) (readFile : String → Except String String)
    (file : AttachmentMsg) : Except String (String × String × Bool) :=
  if jsToLower (extname file.filename) = ".pdf" then
    Except.ok ("PDF", pdfRes.content, pdfRes.success)
  else if isImageFile file.filename then
    Except.ok ("Image", imgRes.content, imgRes.success)
  else if jsToLower (extname file.filename) = ".txt" || jsToLower (extname file.filename) = ".md" then
    match readFile file.path with
    | Except.ok c => Except.ok ("Text", c, true)
    | Except.error e => Except.error e
  else
    Except.ok ("Unknown", "[File: " ++ file.filename ++ "]", true)

/-- `processAndStoreFile(chatId, file)` of the newer fileHandler
(src/unnamed/part_004 lines 71–126): run the extraction dispatch; store
into the knowledge base only when `success && extractedContent &&
!extractedContent.startsWith('[Error')`; on a thrown error return the
error-shaped result and leave the knowledge base untouched. -/
def processAndStoreFile (pdfRes imgRes : ProcResult) (readFile : String → Except String String)
    (kb : KBState) (chatId : String) (file : AttachmentMsg) : KBState × FileResultV2 :=
  match extractV2 pdfRes imgRes readFile file with
  | Except.error e =>
    (kb, { summary := "Error processing file \"" ++ file.filename ++ "\": " ++ e
           content := "[Error: " ++ e ++ "]"
           success := false
           fileType := "Error" })
  | Except.ok (fileType, extractedContent, success) =>
    (if success = true ∧ extractedContent ≠ "" ∧ jsStartsWith extractedContent "[Error" = false then
       addFileToKnowledgeBase kb chatId file.filename extractedContent
     else kb,
     { summary :=
         if success then
           "Successfully processed " ++ jsToLower fileType ++ " file \"" ++ file.filename ++ "\"."
         else
           "Failed to process " ++ jsToLower fileType ++ " file \"" ++ file.filename ++ "\"."
       content := extractedContent
       success := success
       fileType := fileType })

end FileHandlerV2

/-- C9: the newer `processAndStoreFile` leaves the conversation's
knowledge base unchanged when extraction fails — when the processor
reports `success = false`, or the extracted content is empty, or the
content begins with `[Error` (including the thrown-exception path) —
and mutates it exactly by `addFileToKnowledgeBase` on a successful
non-error extraction. -/
theorem c9_failed_extraction_preserves_kb (pdfRes imgRes : FileHandlerV2.ProcResult)
    (readFile : String → Except String String) (kb : FileHandlerV2.KBState)
    (chatId : String) (file : AttachmentMsg) :
    ((FileHandlerV2.processAndStoreFile pdfRes imgRes readFile kb chatId file).2.success = false
      ∨ (FileHandlerV2.processAndStoreFile pdfRes imgRes readFile kb chatId file).2.content = ""
      ∨ jsStartsWith (FileHandlerV2.processAndStoreFile pdfRes imgRes readFile kb chatId file).2.content
          "[Error" = true →
      (FileHandlerV2.processAndStoreFile pdfRes imgRes readFile kb chatId file).1 = kb)
    ∧ ((FileHandlerV2.processAndStoreFile pdfRes imgRes readFile kb chatId file).2.success = true
      ∧ (FileHandlerV2.processAndStoreFile pdfRes imgRes readFile kb chatId file).2.content ≠ ""
      ∧ jsStartsWith (FileHandlerV2.processAndStoreFile pdfRes imgRes readFile kb chatId file).2.content
          "[Error" = false →
      (FileHandlerV2.processAndStoreFile pdfRes imgRes readFile kb chatId file).1 =
        FileHandlerV2.addFileToKnowledgeBase kb chatId file.filename
          (FileHandlerV2.processAndStoreFile pdfRes imgRes readFile kb chatId file).2.content) := by
  rw [FileHandlerV2.processAndStoreFile]
  cases hx : FileHandlerV2.extractV2 pdfRes imgRes readFile file with
  | error e =>
    refine ⟨fun _ => rfl, fun hok => ?_⟩
    exact absurd hok.1 (by simp)
  | ok triple =>
    obtain ⟨fileType, extractedContent, success⟩ := triple
    dsimp only
    by_cases hg : success = true ∧ extractedContent ≠ "" ∧ jsStartsWith extractedContent "[Error" = false
    · rw [if_pos hg]
      exact ⟨fun hbad => by
        rcases hbad with h | h | h
        · exact absurd h (by simp [hg.1])
        · exact absurd h (by simpa using hg.2.1)
        · exact absurd h (by simp [hg.2.2]), fun _ => rfl⟩
    · rw [if_neg hg]
      refine ⟨fun _ => rfl, fun hok => ?_⟩
      exact absurd ⟨hok.1, hok.2.1, hok.2.2⟩ hg

/-- C9 witness: a failed PDF extraction (`success = false`, error-bracketed
content) on an empty knowledge base leaves it unchanged. -/
theorem c9_failed_extraction_preserves_kb_witness :
    (FileHandlerV2.processAndStoreFile { success := false, content := "[Error processing PDF: x]" }
        { success := true, content := "d" } (fun _ => Except.ok "t") (fun _ => []) "c9"
        { filename := "doc.pdf", path := "/tmp/doc.pdf" }).2.success = false
    ∧ (FileHandlerV2.processAndStoreFile { success := false, content := "[Error processing PDF: x]" }
        { success := true, content := "d" } (fun _ => Except.ok "t") (fun _ => []) "c9"
        { filename := "doc.pdf", path := "/tmp/doc.pdf" }).1 = (fun _ => []) := by
  refine ⟨by rfl, ?_⟩
  exact (c9_failed_extraction_preserves_kb
    { success := false, content := "[Error processing PDF: x]" }
    { success := true, content := "d" } (fun _ => Except.ok "t") (fun _ => []) "c9"
    { filename := "doc.pdf", path := "/tmp/doc.pdf" }).1 (Or.inl (by rfl))

/-- C8 witness: a store retaining exactly one file with empty content
still yields a (non-`none`) rendering wrapping that empty content in the
delimiter pair for its filename. -/
theorem c8_knowledge_base_sentinel_witness :
    ∃ pre post,
      FileHandler.getKnowledgeBase
        { knowledgeBase := fun _ => [{ filename := "notes.pdf", content := "" }],
          messageHistory := fun _ => [] } "c2" =
        some (pre ++ ("--- Content from " ++ "notes.pdf" ++ " ---\n" ++ "" ++ "\n--- End of Content ---") ++ post) :=
  (c8_knowledge_base_sentinel
    { knowledgeBase := fun _ => [{ filename := "notes.pdf", content := "" }],
      messageHistory := fun _ => [] } "c2").2
    { filename := "notes.pdf", content := "" } (by simp)

namespace Supervisor

/-- The `setTimeout` delay of `queryDedalusAgent`
(src/brief-ai/index.ts line 52), in milliseconds. -/
def TIMEOUT_MS : Nat := 120000

/-- A character of a JSON string value as emitted by `JSON.stringify`:
the common escapes for quote, backslash and the whitespace controls;
other characters verbatim. -/
def jsonEscapeChar (ch : Char) : String :=
  if ch = '"' then "\\\""
  else if ch = '\\' then "\\\\"
  else if ch = '\n' then "\\n"
  else if ch = '\r' then "\\r"
  else if ch = '\t' then "\\t"
  else String.mk [ch]

/-- A JSON string literal as emitted by `JSON.stringify`. -/
def jsonString (s : String) : String :=
  "\"" ++ String.join (s.data.map jsonEscapeChar) ++ "\""

/-- The line written to the agent's stdin by `queryDedalusAgent`
(src/brief-ai/index.ts line 89):
`JSON.stringify({ query, chat_id: chatId })` — two fields in insertion
order, and nothing else. -/
def serializeQuery (query chatId : String) : String :=
  "\x7b\"query\":" ++ jsonString query ++ ",\"chat_id\":" ++ jsonString chatId ++ "\x7d"

/-- How one settled promise of `queryDedalusAgent` ended: `resolve`d with
a result string, or `reject`ed with an error message. -/
inductive Settled where
  | resolved (v : String)
  | rejected (e : String)
  deriving DecidableEq, Repr

/-- One `queryDedalusAgent` call in flight: the promise's settlement state
and whether its `onData` listener is still attached to the process's
stdout.  `callId` is model-level bookkeeping identifying the promise; the
wire protocol of the source carries no such identifier. -/
structure PendingCall where
  callId : Nat
  settled : Option Settled
  attached : Bool
  deriving DecidableEq, Repr

/-- The supervisor-side state: the calls made so far (in call order), the
lines written to the agent's stdin, and the model-level counter naming the
next call. -/
structure SupState where
  pending : List PendingCall
  stdinLines : List String
  nextCallId : Nat
  deriving DecidableEq, Repr

/-- The state before any `queryDedalusAgent` call. -/
def initSup : SupState :=
  { pending := [], stdinLines := [], nextCallId := 0 }

/-- One `queryDedalusAgent(query, chatId)` call (src/brief-ai/index.ts
lines 41–92): attach a fresh `onData` listener to stdout and write
`JSON.stringify({ query, chat_id: chatId })` plus a newline-terminator to
stdin.  No request identifier is generated or serialized. -/
def send (st : SupState) (query chatId : String) : SupState :=
  { pending := st.pending ++ [{ callId := st.nextCallId, settled := none, attached := true }]
    stdinLines := st.stdinLines ++ [serializeQuery query chatId]
    nextCallId := st.nextCallId + 1 }

/-- One line of the agent's stdout after the per-line `JSON.parse`
attempt in `onData` (src/brief-ai/index.ts lines 58–79): a line that
parses with `status: 'success'` (carrying the value `resolve` receives),
a line that parses with `status: 'error'` (carrying the message), or
noise — an empty line, a non-JSON line, or JSON with any other status —
which every listener skips. -/
inductive InLine where
  | noise
  | success (result : String)
  | err (msg : String)
  deriving DecidableEq, Repr

/-- The first success/error line of a chunk — the line at which each
`onData` listener stops scanning and settles (src/brief-ai/index.ts
lines 59–80). -/
def firstResponse : List InLine → Option Settled
  | [] => none
  | InLine.noise :: rest => firstResponse rest
  | InLine.success v :: _ => some (Settled.resolved v)
  | InLine.err e :: _ => some (Settled.rejected e)

/-- A `data` event on the agent's stdout delivering one chunk.  Node
snapshots the listener list at emit time and invokes every attached
listener with the same chunk; each listener independently scans the
chunk's lines, and at the first success/error line detaches itself and
settles its promise (a no-op if it is already settled, e.g. by timeout).
There is no request identifier: every attached listener matches the same
first response. -/
def deliverChunk (st : SupState) (chunk : List InLine) : SupState :=
  match firstResponse chunk with
  | none => st
  | some out =>
    { st with
        pending := st.pending.map (fun p =>
          if p.attached then
            { p with
                attached := false
                settled := match p.settled with
                  | none => some out
                  | some s => some s }
          else p) }

/-- The 120-second timer of the call named `cid` fires
(src/brief-ai/index.ts lines 49–52): the promise is rejected with
`Error('Dedalus agent timeout')`.  The timeout path does NOT remove the
call's `onData` listener from stdout — `dedalusAgent.stdout.off` is called
only on the success/error paths. -/
def fireTimeout (st : SupState) (cid : Nat) : SupState :=
  { st with
      pending := st.pending.map (fun p =>
        if p.callId = cid ∧ p.settled = none then
          { p with settled := some (Settled.rejected "Dedalus agent timeout") }
        else p) }

end Supervisor

/-- C1 is false of the source: `queryDedalusAgent` serializes only
`{query, chat_id}` — the outbound line contains no `requestId` at all —
and a caller's promise is resolved by the first inbound line that parses
with a success/error status, not by matching any identifier: a single
success line settles every pending call.  (The spec itself flags this in
§9 as the correctness gap its design corrects.) -/
theorem c1_no_requestId_first_wins :
    (Supervisor.send Supervisor.initSup "hi" "chat1").stdinLines =
      ["\x7b\"query\":\"hi\",\"chat_id\":\"chat1\"\x7d"]
    ∧ strIncludes
        ((Supervisor.send Supervisor.initSup "hi" "chat1").stdinLines.getLastD "") "requestId" = false
    ∧ ((Supervisor.deliverChunk
          (Supervisor.send (Supervisor.send Supervisor.initSup "hi" "chat1") "second" "chat2")
          [Supervisor.InLine.success "ans"]).pending.map (fun p => p.settled)) =
        [some (Supervisor.Settled.resolved "ans"), some (Supervisor.Settled.resolved "ans")] := by
  refine ⟨by rfl, by rfl, by rfl⟩

/-- C5 is false of the source: after a call's 120-second timer fires, its
`onData` listener is still attached (the timeout path never calls
`stdout.off`), and because responses carry no request identifier, a
late-arriving success line is not discarded — it settles the next pending
call's promise with the stale answer.  The 120000 ms deadline itself
matches the claim. -/
theorem c5_late_response_misdelivered :
    Supervisor.TIMEOUT_MS = 120000
    ∧ ((Supervisor.fireTimeout (Supervisor.send Supervisor.initSup "q1" "conv1") 0).pending.map
        (fun p => (p.settled, p.attached))) =
        [(some (Supervisor.Settled.rejected "Dedalus agent timeout"), true)]
    ∧ ((Supervisor.deliverChunk
          (Supervisor.send
            (Supervisor.fireTimeout (Supervisor.send Supervisor.initSup "q1" "conv1") 0)
            "q2" "conv2")
          [Supervisor.InLine.success "late answer to q1"]).pending.map (fun p => p.settled)) =
        [some (Supervisor.Settled.rejected "Dedalus agent timeout"),
         some (Supervisor.Settled.resolved "late answer to q1")] := by
  refine ⟨rfl, by rfl, by rfl⟩

/-- JavaScript truthiness of the `string | undefined` values returned by
`getKnowledgeBase`: present and non-empty. -/
def optTruthy (o : Option String) : Bool :=
  match o with
  | some s => s != ""
  | none => false

/-- The `message.attachments && message.attachments.length > 0` test of
`onGroupMessage`. -/
def hasAttachments (m : Msg) : Bool :=
  match m.attachments with
  | some l => decide (0 < l.length)
  | none => false

/-- How one agent query ends for its caller: the `queryDedalusAgent`
promise fulfills with an answer, or rejects with an error message (the
message of the JavaScript `Error`). -/
inductive AgentOutcome where
  | ok (v : String)
  | fail (msg : String)
  deriving DecidableEq, Repr

/-- The index of the first position of `l` where `pat` begins,
case-sensitively.  Helper for `replaceFirstCI`. -/
def firstMatchIdx (pat : List Char) : List Char → Option Nat
  | [] => if pat.isPrefixOf ([] : List Char) then some 0 else none
  | x :: xs =>
    if pat.isPrefixOf (x :: xs) then some 0
    else (firstMatchIdx pat xs).map (fun n => n + 1)

/-- `text.replace(new RegExp(pat, 'i'), '')` for a pattern without regex
metacharacters: remove the first case-insensitive occurrence of `pat` (its
length in characters), or return the text unchanged when there is none. -/
def replaceFirstCI (s pat : String) : String :=
  match firstMatchIdx (jsToLower pat).data (jsToLower s).data with
  | none => s
  | some i => String.mk (s.data.take i ++ s.data.drop (i + pat.data.length))

/-- The bot tag of src/brief-ai/index.ts and src/brief-ai/johntest.ts. -/
def BOT_NAME : String := "@Brief-AI"

/-- The question extracted by `handleTagLogic` in both bots:
`text.replace(new RegExp(BOT_NAME, 'i'), '').trim()`. -/
def stripTag (text : String) : String :=
  jsTrim (replaceFirstCI text BOT_NAME)

/-- The replies a `handleTagLogic` run actually sent, plus the error value
(if any) that escaped it uncaught — in which case no further reply was
sent. -/
structure TagRun where
  replies : List String
  thrown : Option String
  deriving DecidableEq, Repr

namespace IndexBot

/-- The image-analysis test of `answerQuestion`
(src/brief-ai/index.ts line 97): the lowercased question contains
`'analyze image'` or `'describe image'`, or the raw question contains the
literal `'data:image'` (this one is case-sensitive in the source). -/
def isImageAnalysis (question : String) : Bool :=
  strIncludes (jsToLower question) "analyze image"
    || strIncludes question "data:image"
    || strIncludes (jsToLower question) "describe image"

/-- The image-generation test of `answerQuestion`
(src/brief-ai/index.ts line 98). -/
def isImageGeneration (question : String) : Bool :=
  strIncludes (jsToLower question) "create image"
    || strIncludes (jsToLower question) "generate image"
    || strIncludes (jsToLower question) "draw"
    || strIncludes (jsToLower question) "make picture"

/-- The `fullQuery` string `answerQuestion` passes to `queryDedalusAgent`
(src/brief-ai/index.ts lines 94–127): for image-analysis queries the last
5 lines of the rendered conversation context and no knowledge base; for
image-generation the bare question; otherwise history and knowledge base
as available. -/
def composePrompt (st : FileHandler.Store) (chatId question : String) : String :=
  if isImageAnalysis question then
    if FileHandler.getConversationContext st chatId ≠ "" then
      (if joinSep "\n"
          ((jsSplitChar '\n' (FileHandler.getConversationContext st chatId)).drop
            ((jsSplitChar '\n' (FileHandler.getConversationContext st chatId)).length - 5)) ≠ "" then
        joinSep "\n"
          ((jsSplitChar '\n' (FileHandler.getConversationContext st chatId)).drop
            ((jsSplitChar '\n' (FileHandler.getConversationContext st chatId)).length - 5))
          ++ "\n\nCurrent question: " ++ question
      else question)
    else question
  else if isImageGeneration question then question
  else
    if FileHandler.getConversationContext st chatId ≠ ""
        ∧ optTruthy (FileHandler.getKnowledgeBase st chatId) = true then
      FileHandler.getConversationContext st chatId ++ "\n\nFile contents:\n"
        ++ (FileHandler.getKnowledgeBase st chatId).getD ""
        ++ "\n\nCurrent question: " ++ question
    else if FileHandler.getConversationContext st chatId ≠ "" then
      FileHandler.getConversationContext st chatId ++ "\n\nCurrent question: " ++ question
    else if optTruthy (FileHandler.getKnowledgeBase st chatId) = true then
      "File contents:\n" ++ (FileHandler.getKnowledgeBase st chatId).getD ""
        ++ "\n\nQuestion: " ++ question
    else question

/-- `handleTagLogic` of src/brief-ai/index.ts (lines 179–192): send the
`Processing:` acknowledgement, then `await answerQuestion` — which has no
try/catch, so a rejected agent promise propagates out and the answer reply
is never sent.  The agent oracle maps the composed prompt to its outcome;
a rejection surfaces as the JavaScript `Error` whose string form is
`'Error: ' + message`. -/
def handleTagLogic (agent : String → AgentOutcome) (st : FileHandler.Store)
    (chatId text : String) : TagRun :=
  match agent (composePrompt st chatId (stripTag text)) with
  | AgentOutcome.ok a =>
    { replies := ["Processing: \"" ++ stripTag text ++ "\"...", a], thrown := none }
  | AgentOutcome.fail e =>
    { replies := ["Processing: \"" ++ stripTag text ++ "\"..."], thrown := some ("Error: " ++ e) }

/-- Which handler `onGroupMessage` dispatched to after recording the
message (src/brief-ai/index.ts lines 210–239).  The handlers' own effects
are modelled separately; this captures the dispatch decision. -/
inductive GroupAction where
  | ignoredOwn
  | fileLogic (a : AttachmentMsg)
  | tagLogic
  | noAction
  deriving DecidableEq, Repr

/-- `onGroupMessage` of src/brief-ai/index.ts (lines 210–239): the message
is ALWAYS stored into the history first — including the bot's own — and
only then does the `isFromMe` guard return, suppressing any response; a
non-self message dispatches to the file handler (first attachment) when it
has attachments, else to the tag handler when the text contains the bot
name case-insensitively, else to no action. -/
def onGroupMessage (pdfText readFile : String → String) (now : Nat)
    (st : FileHandler.Store) (m : Msg) : FileHandler.Store × GroupAction :=
  let st' := FileHandler.addMessageToHistory pdfText readFile now st m.chatId m
  if m.isFromMe then (st', GroupAction.ignoredOwn)
  else
    if hasAttachments m = true then
      (st', GroupAction.fileLogic ((m.attachments.getD []).headD { filename := "", path := "" }))
    else if strIncludes (jsToLower (m.text.getD "")) (jsToLower BOT_NAME) then
      (st', GroupAction.tagLogic)
    else (st', GroupAction.noAction)

end IndexBot

namespace JohnTest

/-- `answerQuestion` of src/brief-ai/johntest.ts (lines 100–106): the
agent is queried with the bare question (no stored context), and a
rejection is caught and turned into the reply
`` `Error processing question: ${error}` `` — where interpolating the
JavaScript `Error` yields `'Error: ' + message`. -/
def answerQuestion (agent : String → AgentOutcome) (question : String) : String :=
  match agent question with
  | AgentOutcome.ok a => a
  | AgentOutcome.fail e => "Error processing question: Error: " ++ e

/-- `handleTagLogic` of src/brief-ai/johntest.ts (lines 127–140): the
`Processing:` acknowledgement, then the answer — which, because
`answerQuestion` catches, is always a reply; nothing escapes. -/
def handleTagLogic (agent : String → AgentOutcome) (text : String) : TagRun :=
  { replies := ["Processing: \"" ++ stripTag text ++ "\"...",
                answerQuestion agent (stripTag text)]
    thrown := none }

end JohnTest

theorem pushCapped_concat (cap : Nat) (hcap : 0 < cap) (l : List α) (a : α) :
    ∃ t, pushCapped cap l a = t ++ [a] := by
  unfold pushCapped
  by_cases hc : cap < (l ++ [a]).length
  · rw [if_pos hc]
    cases l with
    | nil => simp at hc; omega
    | cons x xs => exact ⟨xs, by simp⟩
  · rw [if_neg hc]
    exact ⟨l, rfl⟩

/-- A plain one-line text message from sender `U`, for the C4 scenario. -/
def plainMsg (t : String) : Msg :=
  { chatId := "g", isFromMe := false, senderName := some "U", text := some t,
    attachments := none }

/-- A conversation with 8 plain one-line history entries, `m1` … `m8`. -/
def st8 : FileHandler.Store :=
  FileHandler.runHistory (fun _ => "") (fun _ => "") FileHandler.initStore "g"
    ((["m1", "m2", "m3", "m4", "m5", "m6", "m7", "m8"].map plainMsg).map (fun m => (m, 0)))

/-- C4 counterexample: on a conversation with 8 single-line history
entries, the image-analysis prompt contains only the last 4 entries plus
the closing delimiter line — the 5th-from-last entry `m4`, which the claim
("exactly the last 5 entries") requires to be present, is absent even
though it is in the rendered history. -/
theorem c4_counterexample :
    IndexBot.isImageAnalysis "analyze image" = true
    ∧ (st8.messageHistory "g").length = 8
    ∧ IndexBot.composePrompt st8 "g" "analyze image" =
        "U: m5\nU: m6\nU: m7\nU: m8\n--- End of Conversation History ---\n\nCurrent question: analyze image"
    ∧ strIncludes (IndexBot.composePrompt st8 "g" "analyze image") "m4" = false
    ∧ strIncludes (FileHandler.getConversationContext st8 "g") "m4" = true := by
  refine ⟨by rfl, by rfl, by rfl, by rfl, by rfl⟩

/-- C4 (amended): for every query classified as image-analysis, the
composed prompt is independent of the knowledge base (no knowledge-base
content is used), and its history portion is exactly some suffix of at
most 5 of the rendered history's lines (the split of the rendering at
newlines — which includes the closing delimiter line, so 8 single-line
entries contribute only their last 4) followed by the question, or the
bare question. -/
theorem c4_last_five_lines_no_kb (st : FileHandler.Store) (chatId q : String)
    (h : IndexBot.isImageAnalysis q = true) :
    (∀ kb, IndexBot.composePrompt { st with knowledgeBase := kb } chatId q =
        IndexBot.composePrompt st chatId q)
    ∧ ∃ tail5,
        tail5 <:+ jsSplitChar '\n' (FileHandler.getConversationContext st chatId)
        ∧ tail5.length ≤ 5
        ∧ (IndexBot.composePrompt st chatId q =
              joinSep "\n" tail5 ++ "\n\nCurrent question: " ++ q
            ∨ IndexBot.composePrompt st chatId q = q) := by
  constructor
  · intro kb
    have hctx : FileHandler.getConversationContext { st with knowledgeBase := kb } chatId =
        FileHandler.getConversationContext st chatId := rfl
    rw [IndexBot.composePrompt, IndexBot.composePrompt, if_pos h, if_pos h, hctx]
  · refine ⟨(jsSplitChar '\n' (FileHandler.getConversationContext st chatId)).drop
      ((jsSplitChar '\n' (FileHandler.getConversationContext st chatId)).length - 5),
      List.drop_suffix _ _, ?_, ?_⟩
    · simp only [List.length_drop]
      omega
    · rw [IndexBot.composePrompt, if_pos h]
      by_cases hc : FileHandler.getConversationContext st chatId ≠ ""
      · rw [if_pos hc]
        by_cases hr : joinSep "\n"
            ((jsSplitChar '\n' (FileHandler.getConversationContext st chatId)).drop
              ((jsSplitChar '\n' (FileHandler.getConversationContext st chatId)).length - 5)) ≠ ""
        · rw [if_pos hr]
          exact Or.inl rfl
        · rw [if_neg hr]
          exact Or.inr rfl
      · rw [if_neg hc]
        exact Or.inr rfl

/-- C4 witness: on the 8-entry conversation, the classifier accepts
`analyze image`, and replacing the knowledge base with one holding a file
does not change the composed prompt. -/
theorem c4_last_five_lines_no_kb_witness :
    IndexBot.isImageAnalysis "analyze image" = true
    ∧ IndexBot.composePrompt
        { st8 with knowledgeBase := fun _ => [{ filename := "kb.txt", content := "SECRET" }] }
        "g" "analyze image" =
      IndexBot.composePrompt st8 "g" "analyze image" := by
  have h := c4_last_five_lines_no_kb st8 "g" "analyze image" (by rfl)
  exact ⟨by rfl, h.1 (fun _ => [{ filename := "kb.txt", content := "SECRET" }])⟩

/-- C6 counterexample: in src/brief-ai/index.ts, a failing agent query on
a tagged question leaves the conversation with only the `Processing:`
acknowledgement — the error escapes `handleTagLogic` uncaught and no
reply of the form `Error processing question: <reason>` (nor any other
final reply) is sent. -/
theorem c6_counterexample :
    (IndexBot.handleTagLogic (fun _ => AgentOutcome.fail "Dedalus agent timeout")
        FileHandler.initStore "g" "@Brief-AI what is 2+2").replies =
      ["Processing: \"what is 2+2\"..."]
    ∧ (IndexBot.handleTagLogic (fun _ => AgentOutcome.fail "Dedalus agent timeout")
        FileHandler.initStore "g" "@Brief-AI what is 2+2").thrown =
      some ("Error: Dedalus agent timeout")
    ∧ ((IndexBot.handleTagLogic (fun _ => AgentOutcome.fail "Dedalus agent timeout")
        FileHandler.initStore "g" "@Brief-AI what is 2+2").replies.any
          (fun r => jsStartsWith r "Error processing question:")) = false := by
  refine ⟨by rfl, by rfl, by rfl⟩

/-- C6 (amended): in src/brief-ai/johntest.ts every failure while
answering a tagged question still yields a final textual reply
`Error processing question: <reason>` (nothing escapes, always two
replies); in src/brief-ai/index.ts, by contrast, `answerQuestion` and
`handleTagLogic` have no error handling, so a failure propagates uncaught
and only the `Processing:` acknowledgement is ever sent. -/
theorem c6_error_reply_only_in_johntest (agent : String → AgentOutcome)
    (st : FileHandler.Store) (chatId text : String) :
    (JohnTest.handleTagLogic agent text).thrown = none
    ∧ (JohnTest.handleTagLogic agent text).replies.length = 2
    ∧ (∀ e, agent (stripTag text) = AgentOutcome.fail e →
        (JohnTest.handleTagLogic agent text).replies.getLast? =
          some ("Error processing question: Error: " ++ e))
    ∧ (∀ e, agent (IndexBot.composePrompt st chatId (stripTag text)) = AgentOutcome.fail e →
        (IndexBot.handleTagLogic agent st chatId text).replies =
            ["Processing: \"" ++ stripTag text ++ "\"..."]
          ∧ (IndexBot.handleTagLogic agent st chatId text).thrown = some ("Error: " ++ e)) := by
  refine ⟨rfl, rfl, ?_, ?_⟩
  · intro e he
    rw [JohnTest.handleTagLogic]
    simp [JohnTest.answerQuestion, he]
  · intro e he
    rw [IndexBot.handleTagLogic, he]
    exact ⟨rfl, rfl⟩

/-- C6 witness: with an agent that fails with `boom`, the johntest bot's
final reply is the error reply, while the index bot sends only the
acknowledgement. -/
theorem c6_error_reply_only_in_johntest_witness :
    (JohnTest.handleTagLogic (fun _ => AgentOutcome.fail "boom") "@Brief-AI hi").replies.getLast? =
      some ("Error processing question: Error: boom")
    ∧ (IndexBot.handleTagLogic (fun _ => AgentOutcome.fail "boom") FileHandler.initStore "g"
        "@Brief-AI hi").replies = ["Processing: \"hi\"..."] := by
  have h := c6_error_reply_only_in_johntest (fun _ => AgentOutcome.fail "boom")
    FileHandler.initStore "g" "@Brief-AI hi"
  exact ⟨h.2.2.1 "boom" rfl, (h.2.2.2 "boom" rfl).1⟩

/-- C10: `onGroupMessage` appends every inbound group message to the
conversation's history before the self-message check — including the
bot's own (`isFromMe = true`) messages; the guard suppresses only the
response (dispatch is `ignoredOwn`, no handler runs), so the bot's own
reply occupies a history slot (it is the newest retained entry) and its
rendering appears in `getConversationContext`'s output. -/
theorem c10_own_messages_recorded (pdfText readFile : String → String) (now : Nat)
    (st : FileHandler.Store) (m : Msg) (h : m.isFromMe = true) :
    (IndexBot.onGroupMessage pdfText readFile now st m).2 = IndexBot.GroupAction.ignoredOwn
    ∧ (IndexBot.onGroupMessage pdfText readFile now st m).1.messageHistory m.chatId =
        pushCapped 10 (st.messageHistory m.chatId)
          (FileHandler.toHistoryEntry pdfText readFile now m)
    ∧ ((IndexBot.onGroupMessage pdfText readFile now st m).1.messageHistory m.chatId).getLast? =
        some (FileHandler.toHistoryEntry pdfText readFile now m)
    ∧ ∃ pre post,
        FileHandler.getConversationContext
            (IndexBot.onGroupMessage pdfText readFile now st m).1 m.chatId =
          pre ++ FileHandler.renderEntry (FileHandler.toHistoryEntry pdfText readFile now m)
            ++ post := by
  have e2 : (IndexBot.onGroupMessage pdfText readFile now st m).1.messageHistory m.chatId =
      pushCapped 10 (st.messageHistory m.chatId)
        (FileHandler.toHistoryEntry pdfText readFile now m) := by
    simp [IndexBot.onGroupMessage, h, FileHandler.addMessageToHistory, FileHandler.setHistory]
  obtain ⟨t, ht⟩ := pushCapped_concat 10 (by omega) (st.messageHistory m.chatId)
    (FileHandler.toHistoryEntry pdfText readFile now m)
  have hmem : FileHandler.toHistoryEntry pdfText readFile now m ∈
      (IndexBot.onGroupMessage pdfText readFile now st m).1.messageHistory m.chatId := by
    rw [e2, ht]
    exact List.mem_append_right t (List.mem_singleton_self _)
  refine ⟨by simp [IndexBot.onGroupMessage, h], e2, ?_, ?_⟩
  · rw [e2, ht]
    exact List.getLast?_concat t
  · have hne : ¬ ((IndexBot.onGroupMessage pdfText readFile now st m).1.messageHistory
        m.chatId).length = 0 := by
      rw [e2, ht]
      simp
    rw [FileHandler.getConversationContext, if_neg hne]
    exact joinSep_mem "\n" _ _
      (List.mem_cons_of_mem _ (List.mem_append_left _ (List.mem_map_of_mem _ hmem)))

/-- A message sent by the bot itself, for the C10 witness. -/
def ownMsg : Msg :=
  { chatId := "g", isFromMe := true, senderName := some "Bot", text := some "the answer",
    attachments := none }

/-- C10 witness: the bot's own message is dispatched to no handler, yet
ends up as the newest retained history entry. -/
theorem c10_own_messages_recorded_witness :
    ownMsg.isFromMe = true
    ∧ (IndexBot.onGroupMessage (fun _ => "") (fun _ => "") 0 FileHandler.initStore ownMsg).2 =
        IndexBot.GroupAction.ignoredOwn
    ∧ ((IndexBot.onGroupMessage (fun _ => "") (fun _ => "") 0 FileHandler.initStore
          ownMsg).1.messageHistory "g").getLast? =
        some (FileHandler.toHistoryEntry (fun _ => "") (fun _ => "") 0 ownMsg) := by
  have h := c10_own_messages_recorded (fun _ => "") (fun _ => "") 0 FileHandler.initStore ownMsg rfl
  exact ⟨rfl, h.1, h.2.2.1⟩

end MessengerAI
